import Mathlib

/-!
Directory create and remove of the FUSE mount (`weed/mount/weedfs_dir_mkrm.go`).

A shallow embedding of `WFS.Mkdir` and `WFS.Rmdir`.  The two functions are
translated statement by statement.  Everything they call that is declared
outside `weedfs_dir_mkrm.go` is either modelled from the specification (the
registry, the cache, path joining) or taken as a parameter (`Env`): the
answers of the remote store, the outcome of the local cache write, the clock,
the name check and the id mappers.  A run ends with a returned status or with
the failure of a collaborator that the function does not handle, and reports
the list of remote requests it issued, in order.
-/

set_option autoImplicit false

namespace mount

/-! ## Status codes -/

/-- The kernel-facing status `fuse.Status` (an `int32` errno; `0` is success). -/
abbrev Status := Int

namespace fuse

/-- Success, `fuse.OK`. -/
def OK : Status := 0

/-- The errno `ENOENT` as `fuse.ENOENT`. -/
def ENOENT : Status := 2

/-- The errno `EIO` as `fuse.EIO`. -/
def EIO : Status := 5

end fuse

/-- Modelled from the spec: the failure `StaleHandle` of section 7, with which
the Registry's `resolve` ends for a handle it does not track. -/
inductive Failure where
  | StaleHandle
deriving DecidableEq, Repr

deriving instance DecidableEq for Except

namespace syscall

/-- The errno `syscall.EINVAL`. -/
def EINVAL : Status := 22

/-- The errno `syscall.ENOTEMPTY`. -/
def ENOTEMPTY : Status := 39

end syscall

namespace os

/-- Go's `os.ModeDir`, the directory bit of an `os.FileMode` (`1 << 31`). -/
def ModeDir : Nat := 2 ^ 31

end os

/-- The conversion `uint32(x)`. -/
def uint32 (x : Nat) : Nat := x % 2 ^ 32

/-- Go's bit-clear operator `x &^ y` on `uint32` operands. -/
def andNot (x y : Nat) : Nat := uint32 x &&& ((2 ^ 32 - 1) ^^^ uint32 y)

namespace strings

/-- Go's `strings.Contains(s, substr)`: `substr` occurs in `s` at some offset. -/
def Contains (s substr : String) : Bool :=
  s.data.tails.any (fun t => substr.data.isPrefixOf t)

end strings

/-! ## Paths -/

/-- The type `util.FullPath`: a slash-delimited hierarchical path. -/
abbrev FullPath := String

namespace FullPath

/-- Modelled from the spec: `parent.Child(name)` of `util.FullPath`, declared
outside `weedfs_dir_mkrm.go`: the slash-delimited path of `name` directly under
`parent` (no second slash after a parent that already ends in one, such as the
root). -/
def Child (fp : FullPath) (name : String) : FullPath :=
  if fp.data.getLast? = some '/' then fp ++ name else fp ++ "/" ++ name

/-- Modelled from the spec: `q` is a descendant of `p` (section 4.2, subtree of
`p`): `q` lies strictly below `p` in the slash-delimited hierarchy. -/
def isDescendantOf (q p : FullPath) : Bool :=
  (Child p "").data.isPrefixOf q.data && decide (q ≠ p)

end FullPath

/-! ## Entries -/

namespace filer_pb

/-- The fields of `filer_pb.FuseAttributes` that `Mkdir` sets. -/
structure FuseAttributes where
  Mtime : Int
  Crtime : Int
  FileMode : Nat
  Uid : Nat
  Gid : Nat
deriving DecidableEq, Repr

/-- The fields of `filer_pb.Entry` that `Mkdir` sets. -/
structure Entry where
  Name : String
  IsDirectory : Bool
  Attributes : FuseAttributes
deriving DecidableEq, Repr

/-- The message `filer_pb.CreateEntryRequest` as `Mkdir` fills it. -/
structure CreateEntryRequest where
  Directory : String
  Entry : Entry
  Signatures : List Int
deriving DecidableEq, Repr

/-- Modelled from the spec: the arguments of `filer_pb.Remove`, declared outside
`weedfs_dir_mkrm.go`, named after the interface
`remove(parentPath, name, recursive, deleteSelf, tolerateRecursionRace,
requireExists, signature)` in that order. -/
structure RemoveRequest where
  parentPath : String
  name : String
  recursive : Bool
  deleteSelf : Bool
  tolerateRecursionRace : Bool
  requireExists : Bool
  signature : List Int
deriving DecidableEq, Repr

end filer_pb

namespace filer

/-- Modelled from the spec: the cached `Entry` of section 3 (`filer.Entry`,
declared outside `weedfs_dir_mkrm.go`): full path, directory flag, modification
and creation time, permission mode, owner and group. -/
structure Entry where
  FullPath : FullPath
  isDirectory : Bool
  Mtime : Int
  Crtime : Int
  Mode : Nat
  Uid : Nat
  Gid : Nat
deriving DecidableEq, Repr

/-- Modelled from the spec: `filer.FromPbEntry(dir, entry)`, declared outside
`weedfs_dir_mkrm.go`: the cache form of a wire entry, keyed by
`dir.Child(entry.Name)` (section 4.3 step 6). -/
def FromPbEntry (dir : String) (entry : filer_pb.Entry) : Entry :=
  { FullPath := FullPath.Child dir entry.Name
    isDirectory := entry.IsDirectory
    Mtime := entry.Attributes.Mtime
    Crtime := entry.Attributes.Crtime
    Mode := entry.Attributes.FileMode
    Uid := entry.Attributes.Uid
    Gid := entry.Attributes.Gid }

end filer

/-! ## The Path/Inode Registry (section 4.1) -/

/-- Modelled from the spec: the Registry `wfs.inodeToPath`, declared outside
`weedfs_dir_mkrm.go`: the handle to path and path to handle bindings and the
next handle of the monotonic allocator. -/
structure InodeToPath where
  nextInodeId : Nat
  inode2path : List (Nat × FullPath)
  path2inode : List (FullPath × Nat)
deriving DecidableEq, Repr

namespace InodeToPath

/-- Modelled from the spec: the handle to path binding of `inode`, if it is
tracked. -/
def resolve (i : InodeToPath) (inode : Nat) : Option FullPath :=
  i.inode2path.lookup inode

/-- Modelled from the spec: the path to handle binding of `path`, if it is
tracked. -/
def handleOf (i : InodeToPath) (path : FullPath) : Option Nat :=
  i.path2inode.lookup path

/-- Modelled from the spec: `resolve(handle) → path` (`GetPath`, declared
outside `weedfs_dir_mkrm.go`): the bound path of a tracked handle; fails with
`StaleHandle` if the handle is unknown.  The Registry is only read. -/
def GetPath (i : InodeToPath) (inode : Nat) : Except Failure FullPath :=
  match i.resolve inode with
  | some path => Except.ok path
  | none => Except.error Failure.StaleHandle

/-- Modelled from the spec: `assign(path)` (`GetInode`, declared outside
`weedfs_dir_mkrm.go`): the existing handle of a tracked path; otherwise the next
monotonic handle, bound in both directions.  Never fails. -/
def GetInode (i : InodeToPath) (path : FullPath) : Nat × InodeToPath :=
  match i.handleOf path with
  | some inode => (inode, i)
  | none =>
    (i.nextInodeId,
      { nextInodeId := i.nextInodeId + 1
        inode2path := (i.nextInodeId, path) :: i.inode2path
        path2inode := (path, i.nextInodeId) :: i.path2inode })

end InodeToPath

/-! ## The Metadata Cache (section 4.2) -/

/-- Modelled from the spec: the Cache `wfs.metaCache`, declared outside
`weedfs_dir_mkrm.go`: the locally mirrored entries, at most one per path. -/
structure MetaCache where
  entries : List filer.Entry
deriving DecidableEq, Repr

namespace MetaCache

/-- Modelled from the spec: `lookup(path)`: the entry cached at `path`, or
absent. -/
def lookup (mc : MetaCache) (path : FullPath) : Option filer.Entry :=
  mc.entries.find? (fun e => e.FullPath == path)

/-- Modelled from the spec: `insert(path, entry)` (`InsertEntry`, declared
outside `weedfs_dir_mkrm.go`): an upsert that overwrites any prior entry at the
path.  `Mkdir` tests the `error` this call returns, which the specification
does not describe: `fault` is that error and `left` the Cache a failed write
leaves behind, both parameters. -/
def InsertEntry (mc : MetaCache) (fault : Option String) (left : MetaCache)
    (entry : filer.Entry) : Option String × MetaCache :=
  match fault with
  | some err => (some err, left)
  | none =>
    (none, { entries := entry :: mc.entries.filter (fun e => e.FullPath != entry.FullPath) })

/-- Modelled from the spec: `delete(path)` (`DeleteEntry`, declared outside
`weedfs_dir_mkrm.go`): removes the entry at `path` and every entry whose path is
a descendant of `path`. -/
def DeleteEntry (mc : MetaCache) (path : FullPath) : MetaCache :=
  { entries := mc.entries.filter
      (fun e => e.FullPath != path && !FullPath.isDescendantOf e.FullPath path) }

end MetaCache

/-! ## The mount and its collaborators -/

/-- The mount option read by `Mkdir`: `wfs.option.Umask`. -/
structure MountOption where
  Umask : Nat
deriving DecidableEq, Repr

/-- The fields of `WFS` that `Mkdir` and `Rmdir` use. -/
structure WFS where
  option : MountOption
  signature : Int
  inodeToPath : InodeToPath
  metaCache : MetaCache
deriving DecidableEq, Repr

/-- What `Mkdir` and `Rmdir` consume from outside `weedfs_dir_mkrm.go`, as
parameters: the name check, the two clock readings, the id mappers, the answer
(`none` is a nil `error`) of the remote store to a create and to a remove
request, the outcome of the local cache write (its error, and the Cache that a
failed write of an entry leaves behind), and the failure text that marks a
non-empty directory. -/
structure Env where
  checkName : String → Status
  nowMtime : Int
  nowCrtime : Int
  LocalToFiler : Nat → Nat → Nat × Nat
  FilerToLocal : Nat → Nat → Nat × Nat
  CreateEntry : filer_pb.CreateEntryRequest → Option String
  Remove : filer_pb.RemoveRequest → Option String
  insertFault : filer.Entry → Option String
  cacheAfterFault : MetaCache → filer.Entry → MetaCache
  MsgFailDelNonEmptyFolder : String

/-- A request sent to the remote store. -/
inductive RemoteCall where
  | create (request : filer_pb.CreateEntryRequest)
  | remove (request : filer_pb.RemoveRequest)
deriving DecidableEq, Repr

namespace fuse

/-- The fields of `fuse.MkdirIn` that `Mkdir` reads. -/
structure MkdirIn where
  NodeId : Nat
  Mode : Nat
  Uid : Nat
  Gid : Nat
deriving DecidableEq, Repr

/-- The field of `fuse.InHeader` that `Rmdir` reads. -/
structure InHeader where
  NodeId : Nat
deriving DecidableEq, Repr

/-- Modelled from the spec: the reply `fuse.EntryOut` as `outputPbEntry`
(declared outside `weedfs_dir_mkrm.go`) fills it: the handle and the entry
returned to the caller. -/
structure EntryOut where
  NodeId : Nat
  entry : filer_pb.Entry
deriving DecidableEq, Repr

end fuse

/-- One run of `Mkdir` or `Rmdir`: the returned status, or the failure that
ended the call before it returned one; the mount afterwards; the reply written
to `out` (if any); and the remote requests issued, in order. -/
structure Outcome where
  code : Except Failure Status
  wfs : WFS
  out : Option fuse.EntryOut
  calls : List RemoteCall
deriving DecidableEq, Repr

namespace WFS

/-- Modelled from the spec: `mapPbIdFromLocalToFiler`, declared outside
`weedfs_dir_mkrm.go`: translates owner and group to the remote store's
numbering and touches nothing else (section 4.3 step 4). -/
def mapPbIdFromLocalToFiler (env : Env) (entry : filer_pb.Entry) : filer_pb.Entry :=
  { entry with Attributes :=
      { entry.Attributes with
        Uid := (env.LocalToFiler entry.Attributes.Uid entry.Attributes.Gid).1
        Gid := (env.LocalToFiler entry.Attributes.Uid entry.Attributes.Gid).2 } }

/-- Modelled from the spec: `mapPbIdFromFilerToLocal`, declared outside
`weedfs_dir_mkrm.go`: translates owner and group back to the local numbering and
touches nothing else (section 4.3 step 4). -/
def mapPbIdFromFilerToLocal (env : Env) (entry : filer_pb.Entry) : filer_pb.Entry :=
  { entry with Attributes :=
      { entry.Attributes with
        Uid := (env.FilerToLocal entry.Attributes.Uid entry.Attributes.Gid).1
        Gid := (env.FilerToLocal entry.Attributes.Uid entry.Attributes.Gid).2 } }

/-- Lines 22-32 of `Mkdir`: the entry built from the request. -/
def mkdirNewEntry (wfs : WFS) (env : Env) (in_ : fuse.MkdirIn) (name : String) :
    filer_pb.Entry :=
  { Name := name
    IsDirectory := true
    Attributes :=
      { Mtime := env.nowMtime
        Crtime := env.nowCrtime
        FileMode := uint32 os.ModeDir ||| andNot in_.Mode (uint32 wfs.option.Umask)
        Uid := in_.Uid
        Gid := in_.Gid } }

/-- Lines 40-47 of `Mkdir`: the create request for the parent path
`dirFullPath`, carrying the entry with its owner and group in the remote
store's numbering. -/
def mkdirRequest (wfs : WFS) (env : Env) (in_ : fuse.MkdirIn) (name : String)
    (dirFullPath : FullPath) : filer_pb.CreateEntryRequest :=
  { Directory := dirFullPath
    Entry := mapPbIdFromLocalToFiler env (mkdirNewEntry wfs env in_ name)
    Signatures := [wfs.signature] }

/-- The function `WFS.Mkdir` (lines 16-74).  `GetPath` hands back one value and
`Mkdir` handles no failure of it: a failed `GetPath` ends the call at line 34,
before any request or local change. -/
def Mkdir (wfs : WFS) (env : Env) (in_ : fuse.MkdirIn) (name : String) : Outcome :=
  let s := env.checkName name
  if s ≠ fuse.OK then
    { code := Except.ok s, wfs := wfs, out := none, calls := [] }
  else
    match wfs.inodeToPath.GetPath in_.NodeId with
    | Except.error failure =>
      { code := Except.error failure, wfs := wfs, out := none, calls := [] }
    | Except.ok dirFullPath =>
      let entryFullPath := FullPath.Child dirFullPath name
      let request := mkdirRequest wfs env in_ name dirFullPath
      -- the closure run by `WithFilerClient`: its error and the cache it leaves
      let closure : Option String × MetaCache :=
        match env.CreateEntry request with
        | some err => (some err, wfs.metaCache)
        | none =>
          let cached := filer.FromPbEntry request.Directory request.Entry
          match wfs.metaCache.InsertEntry (env.insertFault cached)
              (env.cacheAfterFault wfs.metaCache cached) cached with
          | (some err, mc) => (some err, mc)
          | (none, mc) => (none, mc)
      -- the deferred `mapPbIdFromFilerToLocal` runs when the closure returns
      let newEntry := mapPbIdFromFilerToLocal env request.Entry
      match closure with
      | (some _, mc) =>
        { code := Except.ok fuse.EIO, wfs := { wfs with metaCache := mc }, out := none,
          calls := [RemoteCall.create request] }
      | (none, mc) =>
        let assigned := wfs.inodeToPath.GetInode entryFullPath
        { code := Except.ok fuse.OK
          wfs := { wfs with metaCache := mc, inodeToPath := assigned.2 }
          out := some { NodeId := assigned.1, entry := newEntry }
          calls := [RemoteCall.create request] }

/-- Line 90 of `Rmdir`: the remove request for the parent path `dirFullPath`. -/
def rmdirRequest (wfs : WFS) (dirFullPath : FullPath) (name : String) :
    filer_pb.RemoveRequest :=
  let ignoreRecursiveErr := true
  { parentPath := dirFullPath
    name := name
    recursive := true
    deleteSelf := true
    tolerateRecursionRace := ignoreRecursiveErr
    requireExists := false
    signature := [wfs.signature] }

/-- The function `WFS.Rmdir` (lines 76-103).  `GetPath` hands back one value and
`Rmdir` handles no failure of it: a failed `GetPath` ends the call at line 85,
before any request or local change. -/
def Rmdir (wfs : WFS) (env : Env) (header : fuse.InHeader) (name : String) : Outcome :=
  if name = "." then
    { code := Except.ok syscall.EINVAL, wfs := wfs, out := none, calls := [] }
  else if name = ".." then
    { code := Except.ok syscall.ENOTEMPTY, wfs := wfs, out := none, calls := [] }
  else
    match wfs.inodeToPath.GetPath header.NodeId with
    | Except.error failure =>
      { code := Except.error failure, wfs := wfs, out := none, calls := [] }
    | Except.ok dirFullPath =>
      let entryFullPath := FullPath.Child dirFullPath name
      let request := rmdirRequest wfs dirFullPath name
      match env.Remove request with
      | some err =>
        if strings.Contains err env.MsgFailDelNonEmptyFolder then
          { code := Except.ok syscall.ENOTEMPTY, wfs := wfs, out := none,
            calls := [RemoteCall.remove request] }
        else
          { code := Except.ok fuse.ENOENT, wfs := wfs, out := none,
            calls := [RemoteCall.remove request] }
      | none =>
        { code := Except.ok fuse.OK
          wfs := { wfs with metaCache := wfs.metaCache.DeleteEntry entryFullPath }
          out := none
          calls := [RemoteCall.remove request] }

end WFS

/-- Modelled from the spec: what the remote store reflects after a run
(`create(parentPath, entry, signature) → success | failure`, section 6): it
holds the entry `name` under `dir` exactly when one of the issued requests was a
create for it that the store answered with success. -/
def remoteHolds (env : Env) (calls : List RemoteCall) (dir : String) (name : String) : Bool :=
  calls.any fun c =>
    match c with
    | RemoteCall.create request =>
      decide (request.Directory = dir) && decide (request.Entry.Name = name) &&
        (env.CreateEntry request).isNone
    | RemoteCall.remove _ => false

/-! ## Concrete mounts and collaborators used to evaluate the code -/

/-- A collaborator set in which every call succeeds: names shorter than 256
bytes are legal, ids are mapped to themselves, the store answers success. -/
def envOk : Env :=
  { checkName := fun n => if n.length < 256 then fuse.OK else 36
    nowMtime := 1700000000
    nowCrtime := 1700000000
    LocalToFiler := fun u g => (u, g)
    FilerToLocal := fun u g => (u, g)
    CreateEntry := fun _ => none
    Remove := fun _ => none
    insertFault := fun _ => none
    cacheAfterFault := fun mc _ => mc
    MsgFailDelNonEmptyFolder := "fail to delete non-empty folder" }

/-- As `envOk`, but the remote store refuses every create. -/
def envCreateFails : Env :=
  { envOk with CreateEntry := fun _ => some "rpc error: connection refused" }

/-- As `envOk`, but the local cache write fails (and, in this collaborator
set, leaves the Cache as it found it). -/
def envInsertFails : Env :=
  { envOk with insertFault := fun _ => some "local store: write failed" }

/-- As `envOk`, but the remote store reports a non-empty directory on remove. -/
def envNotEmpty : Env :=
  { envOk with
    Remove := fun r => some ("rpc error: fail to delete non-empty folder: " ++ r.name) }

/-- As `envOk`, but the remote store fails every remove for another reason. -/
def envRemoveFails : Env :=
  { envOk with Remove := fun _ => some "rpc error: deadline exceeded" }

/-- A mount with umask 022 that tracks `/` (handle 1) and `/home` (handle 2). -/
def wfsHome : WFS :=
  { option := { Umask := 0o22 }
    signature := 7
    inodeToPath :=
      { nextInodeId := 42
        inode2path := [(1, "/"), (2, "/home")]
        path2inode := [("/", 1), ("/home", 2)] }
    metaCache := { entries := [] } }

/-- The mount `wfsHome` after `/home/photos` and `/home/photos/a.jpg` were
created: both are cached, `/home/photos` is bound to handle 42. -/
def wfsPhotos : WFS :=
  { option := { Umask := 0o22 }
    signature := 7
    inodeToPath :=
      { nextInodeId := 43
        inode2path := [(42, "/home/photos"), (1, "/"), (2, "/home")]
        path2inode := [("/home/photos", 42), ("/", 1), ("/home", 2)] }
    metaCache :=
      { entries :=
          [ { FullPath := "/home/photos/a.jpg", isDirectory := false, Mtime := 1700000001,
              Crtime := 1700000001, Mode := 0o644, Uid := 1000, Gid := 1000 },
            { FullPath := "/home/photos", isDirectory := true, Mtime := 1700000000,
              Crtime := 1700000000, Mode := 2 ^ 31 + 0o755, Uid := 1000, Gid := 1000 },
            { FullPath := "/home/notes", isDirectory := true, Mtime := 1700000000,
              Crtime := 1700000000, Mode := 2 ^ 31 + 0o755, Uid := 1000, Gid := 1000 } ] } }

/-- The request `mkdir(h, "photos", 0755, 1000, 1000)` on parent handle `h`. -/
def mkdirPhotos (h : Nat) : fuse.MkdirIn :=
  { NodeId := h, Mode := 0o755, Uid := 1000, Gid := 1000 }

/-! ## Step lemmas: one per path through the code -/

section steps

variable (wfs : WFS) (env : Env)

theorem GetPath_of_resolve (i : InodeToPath) (inode : Nat) (parent : FullPath)
    (h : i.resolve inode = some parent) : i.GetPath inode = Except.ok parent := by
  simp [InodeToPath.GetPath, h]

theorem Mkdir_of_illegal (in_ : fuse.MkdirIn) (name : String)
    (h : env.checkName name ≠ fuse.OK) :
    wfs.Mkdir env in_ name =
      { code := Except.ok (env.checkName name), wfs := wfs, out := none, calls := [] } := by
  simp [WFS.Mkdir, h]

theorem Mkdir_of_failed_GetPath (in_ : fuse.MkdirIn) (name : String) (failure : Failure)
    (h : env.checkName name = fuse.OK)
    (hp : wfs.inodeToPath.GetPath in_.NodeId = Except.error failure) :
    wfs.Mkdir env in_ name =
      { code := Except.error failure, wfs := wfs, out := none, calls := [] } := by
  simp [WFS.Mkdir, h, hp]

theorem Mkdir_of_create_failed (in_ : fuse.MkdirIn) (name : String) (parent : FullPath)
    (err : String) (h : env.checkName name = fuse.OK)
    (hp : wfs.inodeToPath.GetPath in_.NodeId = Except.ok parent)
    (hc : env.CreateEntry (wfs.mkdirRequest env in_ name parent) = some err) :
    wfs.Mkdir env in_ name =
      { code := Except.ok fuse.EIO, wfs := wfs, out := none,
        calls := [RemoteCall.create (wfs.mkdirRequest env in_ name parent)] } := by
  simp [WFS.Mkdir, h, hp, hc]

theorem Mkdir_of_insert_failed (in_ : fuse.MkdirIn) (name : String) (parent : FullPath)
    (err : String) (h : env.checkName name = fuse.OK)
    (hp : wfs.inodeToPath.GetPath in_.NodeId = Except.ok parent)
    (hc : env.CreateEntry (wfs.mkdirRequest env in_ name parent) = none)
    (hi : env.insertFault (filer.FromPbEntry (wfs.mkdirRequest env in_ name parent).Directory
        (wfs.mkdirRequest env in_ name parent).Entry) = some err) :
    wfs.Mkdir env in_ name =
      { code := Except.ok fuse.EIO
        wfs :=
          { wfs with
            metaCache := env.cacheAfterFault wfs.metaCache
              (filer.FromPbEntry (wfs.mkdirRequest env in_ name parent).Directory
                (wfs.mkdirRequest env in_ name parent).Entry) }
        out := none
        calls := [RemoteCall.create (wfs.mkdirRequest env in_ name parent)] } := by
  simp [WFS.Mkdir, h, hp, hc, hi, MetaCache.InsertEntry]

theorem Mkdir_of_committed (in_ : fuse.MkdirIn) (name : String) (parent : FullPath)
    (h : env.checkName name = fuse.OK)
    (hp : wfs.inodeToPath.GetPath in_.NodeId = Except.ok parent)
    (hc : env.CreateEntry (wfs.mkdirRequest env in_ name parent) = none)
    (hi : env.insertFault (filer.FromPbEntry (wfs.mkdirRequest env in_ name parent).Directory
        (wfs.mkdirRequest env in_ name parent).Entry) = none) :
    wfs.Mkdir env in_ name =
      { code := Except.ok fuse.OK
        wfs :=
          { wfs with
            metaCache :=
              { entries :=
                  filer.FromPbEntry (wfs.mkdirRequest env in_ name parent).Directory
                      (wfs.mkdirRequest env in_ name parent).Entry ::
                    wfs.metaCache.entries.filter (fun e => e.FullPath !=
                      (filer.FromPbEntry (wfs.mkdirRequest env in_ name parent).Directory
                        (wfs.mkdirRequest env in_ name parent).Entry).FullPath) }
            inodeToPath := (wfs.inodeToPath.GetInode (FullPath.Child parent name)).2 }
        out := some
          { NodeId := (wfs.inodeToPath.GetInode (FullPath.Child parent name)).1
            entry := WFS.mapPbIdFromFilerToLocal env (wfs.mkdirRequest env in_ name parent).Entry }
        calls := [RemoteCall.create (wfs.mkdirRequest env in_ name parent)] } := by
  simp [WFS.Mkdir, h, hp, hc, hi, MetaCache.InsertEntry]

theorem Rmdir_of_dot (header : fuse.InHeader) :
    wfs.Rmdir env header "." =
      { code := Except.ok syscall.EINVAL, wfs := wfs, out := none, calls := [] } := by
  simp [WFS.Rmdir]

theorem Rmdir_of_dotdot (header : fuse.InHeader) :
    wfs.Rmdir env header ".." =
      { code := Except.ok syscall.ENOTEMPTY, wfs := wfs, out := none, calls := [] } := by
  simp [WFS.Rmdir]

theorem Rmdir_of_failed_GetPath (header : fuse.InHeader) (name : String) (failure : Failure)
    (h1 : name ≠ ".") (h2 : name ≠ "..")
    (hp : wfs.inodeToPath.GetPath header.NodeId = Except.error failure) :
    wfs.Rmdir env header name =
      { code := Except.error failure, wfs := wfs, out := none, calls := [] } := by
  simp [WFS.Rmdir, h1, h2, hp]

theorem Rmdir_of_remove_failed (header : fuse.InHeader) (name : String) (parent : FullPath)
    (err : String) (h1 : name ≠ ".") (h2 : name ≠ "..")
    (hp : wfs.inodeToPath.GetPath header.NodeId = Except.ok parent)
    (hr : env.Remove (wfs.rmdirRequest parent name) = some err) :
    wfs.Rmdir env header name =
      { code := Except.ok (if strings.Contains err env.MsgFailDelNonEmptyFolder
          then syscall.ENOTEMPTY else fuse.ENOENT)
        wfs := wfs, out := none
        calls := [RemoteCall.remove (wfs.rmdirRequest parent name)] } := by
  simp only [WFS.Rmdir, h1, h2, hp, hr, if_false]
  split <;> rfl

theorem Rmdir_of_removed (header : fuse.InHeader) (name : String) (parent : FullPath)
    (h1 : name ≠ ".") (h2 : name ≠ "..")
    (hp : wfs.inodeToPath.GetPath header.NodeId = Except.ok parent)
    (hr : env.Remove (wfs.rmdirRequest parent name) = none) :
    wfs.Rmdir env header name =
      { code := Except.ok fuse.OK
        wfs := { wfs with metaCache := wfs.metaCache.DeleteEntry (FullPath.Child parent name) }
        out := none
        calls := [RemoteCall.remove (wfs.rmdirRequest parent name)] } := by
  simp only [WFS.Rmdir, h1, h2, hp, hr, if_false]

end steps

/-! ## Which requests a run issues -/

theorem Mkdir_calls (wfs : WFS) (env : Env) (in_ : fuse.MkdirIn) (name : String) :
    (wfs.Mkdir env in_ name).calls =
      if env.checkName name = fuse.OK then
        match wfs.inodeToPath.GetPath in_.NodeId with
        | Except.ok parent => [RemoteCall.create (wfs.mkdirRequest env in_ name parent)]
        | Except.error _ => []
      else [] := by
  by_cases h : env.checkName name = fuse.OK
  · rw [if_pos h]
    cases hp : wfs.inodeToPath.GetPath in_.NodeId with
    | error failure => rw [Mkdir_of_failed_GetPath wfs env in_ name failure h hp]
    | ok parent =>
      cases hc : env.CreateEntry (wfs.mkdirRequest env in_ name parent) with
      | some err => rw [Mkdir_of_create_failed wfs env in_ name parent err h hp hc]
      | none =>
        cases hi : env.insertFault
            (filer.FromPbEntry (wfs.mkdirRequest env in_ name parent).Directory
              (wfs.mkdirRequest env in_ name parent).Entry) with
        | some err => rw [Mkdir_of_insert_failed wfs env in_ name parent err h hp hc hi]
        | none => rw [Mkdir_of_committed wfs env in_ name parent h hp hc hi]
  · rw [if_neg h, Mkdir_of_illegal wfs env in_ name h]

theorem Rmdir_calls (wfs : WFS) (env : Env) (header : fuse.InHeader) (name : String) :
    (wfs.Rmdir env header name).calls =
      if name = "." ∨ name = ".." then []
      else
        match wfs.inodeToPath.GetPath header.NodeId with
        | Except.ok parent => [RemoteCall.remove (wfs.rmdirRequest parent name)]
        | Except.error _ => [] := by
  by_cases h1 : name = "."
  · subst h1
    simp [Rmdir_of_dot]
  · by_cases h2 : name = ".."
    · subst h2
      simp [Rmdir_of_dotdot]
    · rw [if_neg (by simp [h1, h2])]
      cases hp : wfs.inodeToPath.GetPath header.NodeId with
      | error failure => rw [Rmdir_of_failed_GetPath wfs env header name failure h1 h2 hp]
      | ok parent =>
        cases hr : env.Remove (wfs.rmdirRequest parent name) with
        | some err => rw [Rmdir_of_remove_failed wfs env header name parent err h1 h2 hp hr]
        | none => rw [Rmdir_of_removed wfs env header name parent h1 h2 hp hr]

theorem Mkdir_sent (wfs : WFS) (env : Env) (in_ : fuse.MkdirIn) (name : String)
    (request : filer_pb.CreateEntryRequest)
    (hsent : RemoteCall.create request ∈ (wfs.Mkdir env in_ name).calls) :
    env.checkName name = fuse.OK ∧
    ∃ parent, wfs.inodeToPath.GetPath in_.NodeId = Except.ok parent ∧
      request = wfs.mkdirRequest env in_ name parent := by
  rw [Mkdir_calls] at hsent
  by_cases h : env.checkName name = fuse.OK
  · rw [if_pos h] at hsent
    cases hp : wfs.inodeToPath.GetPath in_.NodeId with
    | error failure =>
      rw [hp] at hsent
      simp at hsent
    | ok parent =>
      rw [hp] at hsent
      exact ⟨h, parent, rfl, by simpa using hsent⟩
  · rw [if_neg h] at hsent
    simp at hsent

theorem Rmdir_sent (wfs : WFS) (env : Env) (header : fuse.InHeader) (name : String)
    (request : filer_pb.RemoveRequest)
    (hsent : RemoteCall.remove request ∈ (wfs.Rmdir env header name).calls) :
    name ≠ "." ∧ name ≠ ".." ∧
    ∃ parent, wfs.inodeToPath.GetPath header.NodeId = Except.ok parent ∧
      request = wfs.rmdirRequest parent name := by
  rw [Rmdir_calls] at hsent
  by_cases h : name = "." ∨ name = ".."
  · rw [if_pos h] at hsent
    simp at hsent
  · rw [if_neg h] at hsent
    have h1 : name ≠ "." := fun e => h (Or.inl e)
    have h2 : name ≠ ".." := fun e => h (Or.inr e)
    cases hp : wfs.inodeToPath.GetPath header.NodeId with
    | error failure =>
      rw [hp] at hsent
      simp at hsent
    | ok parent =>
      rw [hp] at hsent
      exact ⟨h1, h2, parent, rfl, by simpa using hsent⟩

/-! ## Facts about the modelled collaborators -/

theorem strings_Contains_iff_infix (s substr : String) :
    strings.Contains s substr = true ↔ substr.data <:+: s.data := by
  simp only [strings.Contains, List.any_eq_true, List.mem_tails, List.isPrefixOf_iff_prefix,
    List.infix_iff_prefix_suffix]
  constructor
  · rintro ⟨t, ht, hp⟩
    exact ⟨t, hp, ht⟩
  · rintro ⟨t, hp, ht⟩
    exact ⟨t, ht, hp⟩

theorem uint32_ModeDir : uint32 os.ModeDir = os.ModeDir := by
  decide

theorem andNot_uint32_right (x y : Nat) : andNot x (uint32 y) = andNot x y := by
  simp [andNot, uint32]

theorem andNot_testBit (x y i : Nat) :
    (andNot x y).testBit i = (decide (i < 32) && x.testBit i && !y.testBit i) := by
  simp only [andNot, uint32, Nat.testBit_and, Nat.testBit_xor, Nat.testBit_mod_two_pow,
    Nat.testBit_two_pow_sub_one]
  cases decide (i < 32) <;> cases x.testBit i <;> cases y.testBit i <;> rfl

theorem dirMode_testBit (x y i : Nat) :
    (os.ModeDir ||| andNot x y).testBit i =
      (decide (i = 31) || (decide (i < 32) && x.testBit i && !y.testBit i)) := by
  rw [Nat.testBit_or, andNot_testBit, os.ModeDir, Nat.testBit_two_pow]
  congr 2
  exact propext eq_comm

theorem lookup_upsert_self (mc : MetaCache) (entry : filer.Entry) :
    MetaCache.lookup
      { entries := entry :: mc.entries.filter (fun e => e.FullPath != entry.FullPath) }
      entry.FullPath = some entry := by
  simp [MetaCache.lookup]

theorem lookup_DeleteEntry_self (mc : MetaCache) (path : FullPath) :
    (mc.DeleteEntry path).lookup path = none := by
  simp only [MetaCache.DeleteEntry, MetaCache.lookup, List.find?_eq_none, List.mem_filter]
  rintro e ⟨-, he⟩
  simp only [Bool.and_eq_true, bne_iff_ne] at he
  simpa using he.1

theorem lookup_DeleteEntry_descendant (mc : MetaCache) (path q : FullPath)
    (hq : FullPath.isDescendantOf q path = true) :
    (mc.DeleteEntry path).lookup q = none := by
  simp only [MetaCache.DeleteEntry, MetaCache.lookup, List.find?_eq_none, List.mem_filter]
  rintro e ⟨-, he⟩
  simp only [Bool.and_eq_true, bne_iff_ne, Bool.not_eq_true'] at he
  intro heq
  have : e.FullPath = q := by simpa using heq
  rw [this, hq] at he
  exact absurd he.2 (by simp)

theorem find?_filter_of_kept {α : Type} (keep want : α → Bool) (l : List α)
    (h : ∀ a, want a = true → keep a = true) :
    (l.filter keep).find? want = l.find? want := by
  induction l with
  | nil => rfl
  | cons a l ih =>
    cases hw : want a with
    | true => simp [List.filter_cons, h a hw, hw]
    | false =>
      cases hk : keep a with
      | true => simp [List.filter_cons, hk, hw, ih]
      | false => simp [List.filter_cons, hk, hw, ih]

theorem lookup_DeleteEntry_other (mc : MetaCache) (path q : FullPath)
    (hne : q ≠ path) (hq : FullPath.isDescendantOf q path = false) :
    (mc.DeleteEntry path).lookup q = mc.lookup q := by
  unfold MetaCache.DeleteEntry MetaCache.lookup
  apply find?_filter_of_kept
  intro e he
  have heq : e.FullPath = q := by simpa using he
  rw [heq, hq]
  simpa using hne

theorem handleOf_GetInode (i : InodeToPath) (path : FullPath) :
    (i.GetInode path).2.handleOf path = some (i.GetInode path).1 := by
  unfold InodeToPath.GetInode
  cases h : i.handleOf path with
  | some inode => simpa using h
  | none => simp [InodeToPath.handleOf, List.lookup]

theorem remoteHolds_create (env : Env) (request : filer_pb.CreateEntryRequest) :
    remoteHolds env [RemoteCall.create request] request.Directory request.Entry.Name =
      (env.CreateEntry request).isNone := by
  simp [remoteHolds]

theorem remoteHolds_nil (env : Env) (dir name : String) :
    remoteHolds env [] dir name = false := rfl

theorem remoteHolds_refused (env : Env) (request : filer_pb.CreateEntryRequest)
    (err : String) (h : env.CreateEntry request = some err) (dir name : String) :
    remoteHolds env [RemoteCall.create request] dir name = false := by
  simp [remoteHolds, h]

/-! ## Create: remote failure -/

/-- C2: a `Mkdir` call whose remote create request fails returns `EIO` and
leaves the Cache and the Registry exactly as they were: no entry is inserted
and no handle is assigned for `parent.Child(name)`. -/
theorem Mkdir_remote_failure_keeps_local_state (wfs : WFS) (env : Env)
    (in_ : fuse.MkdirIn) (name : String) (request : filer_pb.CreateEntryRequest)
    (err : String)
    (hsent : RemoteCall.create request ∈ (wfs.Mkdir env in_ name).calls)
    (hfail : env.CreateEntry request = some err) :
    (wfs.Mkdir env in_ name).code = Except.ok fuse.EIO ∧
    (wfs.Mkdir env in_ name).wfs.metaCache = wfs.metaCache ∧
    (wfs.Mkdir env in_ name).wfs.inodeToPath = wfs.inodeToPath ∧
    (∀ path, (wfs.Mkdir env in_ name).wfs.metaCache.lookup path =
      wfs.metaCache.lookup path) ∧
    (∀ path, (wfs.Mkdir env in_ name).wfs.inodeToPath.handleOf path =
      wfs.inodeToPath.handleOf path) ∧
    (∀ inode, (wfs.Mkdir env in_ name).wfs.inodeToPath.resolve inode =
      wfs.inodeToPath.resolve inode) := by
  obtain ⟨hlegal, parent, hparent, hreq⟩ := Mkdir_sent wfs env in_ name request hsent
  subst hreq
  rw [Mkdir_of_create_failed wfs env in_ name parent err hlegal hparent hfail]
  simp

/-- C2, evaluated: with umask 022 and `/home` bound to handle 2, a refused
create of `/home/photos` returns `EIO` and nothing local changes. -/
theorem Mkdir_remote_failure_keeps_local_state_witness :
    (wfsHome.Mkdir envCreateFails (mkdirPhotos 2) "photos").code = Except.ok fuse.EIO ∧
    (wfsHome.Mkdir envCreateFails (mkdirPhotos 2) "photos").wfs.metaCache =
      wfsHome.metaCache ∧
    (wfsHome.Mkdir envCreateFails (mkdirPhotos 2) "photos").wfs.inodeToPath =
      wfsHome.inodeToPath :=
  have h := Mkdir_remote_failure_keeps_local_state wfsHome envCreateFails (mkdirPhotos 2)
    "photos" (wfsHome.mkdirRequest envCreateFails (mkdirPhotos 2) "photos" "/home")
    "rpc error: connection refused" (by decide) rfl
  ⟨h.1, h.2.1, h.2.2.1⟩

/-! ## Remove: the two reserved names -/

/-- C7: `Rmdir(parent, ".")` returns `EINVAL` whatever the parent handle, the
Cache, the Registry and the remote store's answers are; it issues no remote
request and leaves the mount (Cache and Registry included) unchanged. -/
theorem Rmdir_dot_is_invalid_argument (wfs : WFS) (env : Env) (header : fuse.InHeader) :
    (wfs.Rmdir env header ".").code = Except.ok syscall.EINVAL ∧
    (wfs.Rmdir env header ".").calls = [] ∧
    (wfs.Rmdir env header ".").wfs.metaCache = wfs.metaCache ∧
    (wfs.Rmdir env header ".").wfs.inodeToPath = wfs.inodeToPath ∧
    (wfs.Rmdir env header ".").wfs = wfs := by
  rw [Rmdir_of_dot]
  simp

/-- C8: `Rmdir(parent, "..")` returns `ENOTEMPTY`, which is not `EINVAL`,
whatever the parent handle, the Cache, the Registry and the remote store's
answers are; it issues no remote request and leaves the mount (Cache and
Registry included) unchanged. -/
theorem Rmdir_dotdot_is_not_empty (wfs : WFS) (env : Env) (header : fuse.InHeader) :
    (wfs.Rmdir env header "..").code = Except.ok syscall.ENOTEMPTY ∧
    (wfs.Rmdir env header "..").code ≠ Except.ok syscall.EINVAL ∧
    (wfs.Rmdir env header "..").calls = [] ∧
    (wfs.Rmdir env header "..").wfs.metaCache = wfs.metaCache ∧
    (wfs.Rmdir env header "..").wfs.inodeToPath = wfs.inodeToPath ∧
    (wfs.Rmdir env header "..").wfs = wfs := by
  rw [Rmdir_of_dotdot]
  have hne : (Except.ok syscall.ENOTEMPTY : Except Failure Status) ≠
      Except.ok syscall.EINVAL := by decide
  exact ⟨rfl, hne, rfl, rfl, rfl, rfl⟩

/-! ## Remove: remote failure -/

/-- C4: a `Rmdir` call with a name other than `.` and `..` whose remote remove
fails returns `ENOTEMPTY` when the failure text contains the non-empty-folder
message and `ENOENT` for every other failure; the Cache is unchanged. -/
theorem Rmdir_remote_failure_classified (wfs : WFS) (env : Env) (header : fuse.InHeader)
    (name : String) (request : filer_pb.RemoveRequest) (err : String)
    (h1 : name ≠ ".") (h2 : name ≠ "..")
    (hsent : RemoteCall.remove request ∈ (wfs.Rmdir env header name).calls)
    (hfail : env.Remove request = some err) :
    (wfs.Rmdir env header name).code =
      Except.ok (if strings.Contains err env.MsgFailDelNonEmptyFolder then syscall.ENOTEMPTY
        else fuse.ENOENT) ∧
    (wfs.Rmdir env header name).wfs.metaCache = wfs.metaCache ∧
    (∀ path, (wfs.Rmdir env header name).wfs.metaCache.lookup path =
      wfs.metaCache.lookup path) := by
  obtain ⟨-, -, parent, hparent, hreq⟩ := Rmdir_sent wfs env header name request hsent
  subst hreq
  rw [Rmdir_of_remove_failed wfs env header name parent err h1 h2 hparent hfail]
  simp

/-- C4, evaluated on the mount that caches `/home/photos` and a child of it: a
non-empty report gives `ENOTEMPTY`, a timeout gives `ENOENT`, and
`/home/photos` stays cached in both runs. -/
theorem Rmdir_remote_failure_classified_witness :
    ((wfsPhotos.Rmdir envNotEmpty ⟨2⟩ "photos").code = Except.ok syscall.ENOTEMPTY ∧
      (wfsPhotos.Rmdir envNotEmpty ⟨2⟩ "photos").wfs.metaCache = wfsPhotos.metaCache) ∧
    ((wfsPhotos.Rmdir envRemoveFails ⟨2⟩ "photos").code = Except.ok fuse.ENOENT ∧
      (wfsPhotos.Rmdir envRemoveFails ⟨2⟩ "photos").wfs.metaCache = wfsPhotos.metaCache) :=
  have a := Rmdir_remote_failure_classified wfsPhotos envNotEmpty ⟨2⟩ "photos"
    (wfsPhotos.rmdirRequest "/home" "photos")
    "rpc error: fail to delete non-empty folder: photos" (by decide) (by decide)
    (by decide) rfl
  have b := Rmdir_remote_failure_classified wfsPhotos envRemoveFails ⟨2⟩ "photos"
    (wfsPhotos.rmdirRequest "/home" "photos")
    "rpc error: deadline exceeded" (by decide) (by decide) (by decide) rfl
  ⟨⟨a.1.trans (by decide), a.2.1⟩, ⟨b.1.trans (by decide), b.2.1⟩⟩

/-! ## Remove: the Registry and the request -/

/-- C6, refuted as stated: on the mount where `/home/photos` is bound to handle
42, a `Rmdir` of it whose remote remove succeeds returns `OK` and the Registry
still holds both the path to handle and the handle to path binding. -/
theorem Rmdir_success_keeps_handle_bound :
    envOk.Remove (wfsPhotos.rmdirRequest "/home" "photos") = none ∧
    (wfsPhotos.Rmdir envOk ⟨2⟩ "photos").code = Except.ok fuse.OK ∧
    (wfsPhotos.Rmdir envOk ⟨2⟩ "photos").wfs.inodeToPath.handleOf "/home/photos" = some 42 ∧
    (wfsPhotos.Rmdir envOk ⟨2⟩ "photos").wfs.inodeToPath.resolve 42 = some "/home/photos" := by
  decide

/-- C6, amended: a `Rmdir` call whose remote remove succeeds returns `OK` and
leaves the Registry as it was: it releases nothing, so every path to handle and
handle to path binding held before the call is held after it. -/
theorem Rmdir_success_leaves_registry (wfs : WFS) (env : Env) (header : fuse.InHeader)
    (name : String) (request : filer_pb.RemoveRequest)
    (h1 : name ≠ ".") (h2 : name ≠ "..")
    (hsent : RemoteCall.remove request ∈ (wfs.Rmdir env header name).calls)
    (hok : env.Remove request = none) :
    (wfs.Rmdir env header name).code = Except.ok fuse.OK ∧
    (wfs.Rmdir env header name).wfs.inodeToPath = wfs.inodeToPath ∧
    (∀ path, (wfs.Rmdir env header name).wfs.inodeToPath.handleOf path =
      wfs.inodeToPath.handleOf path) ∧
    (∀ inode, (wfs.Rmdir env header name).wfs.inodeToPath.resolve inode =
      wfs.inodeToPath.resolve inode) := by
  obtain ⟨-, -, parent, hparent, hreq⟩ := Rmdir_sent wfs env header name request hsent
  subst hreq
  rw [Rmdir_of_removed wfs env header name parent h1 h2 hparent hok]
  simp

/-- C6 amended, evaluated: removing `/home/photos` leaves the Registry of
`wfsPhotos` untouched. -/
theorem Rmdir_success_leaves_registry_witness :
    (wfsPhotos.Rmdir envOk ⟨2⟩ "photos").code = Except.ok fuse.OK ∧
    (wfsPhotos.Rmdir envOk ⟨2⟩ "photos").wfs.inodeToPath = wfsPhotos.inodeToPath :=
  have h := Rmdir_success_leaves_registry wfsPhotos envOk ⟨2⟩ "photos"
    (wfsPhotos.rmdirRequest "/home" "photos") (by decide) (by decide) (by decide) rfl
  ⟨h.1, h.2.1⟩

/-- C10, refuted as stated: the one request that `Rmdir(/home, "photos")`
issues carries `false` in the fourth flag position (`requireExists` of the
interface), not `true`. -/
theorem Rmdir_request_fourth_flag_false :
    (wfsPhotos.Rmdir envOk ⟨2⟩ "photos").calls =
      [RemoteCall.remove
        { parentPath := "/home", name := "photos", recursive := true, deleteSelf := true,
          tolerateRecursionRace := true, requireExists := false, signature := [7] }] ∧
    (wfsPhotos.Rmdir envOk ⟨2⟩ "photos").calls ≠
      [RemoteCall.remove
        { parentPath := "/home", name := "photos", recursive := true, deleteSelf := true,
          tolerateRecursionRace := true, requireExists := true, signature := [7] }] := by
  decide

/-- C10, amended: a `Rmdir` call that reaches the remote store issues exactly
one request, a remove scoped to (parent path, name) that carries, in interface
order, recursive = true, deleteSelf = true, tolerateRecursionRace = true,
requireExists = false, and the signature list holding exactly the session's
replication signature. -/
theorem Rmdir_issues_one_remove_request (wfs : WFS) (env : Env) (header : fuse.InHeader)
    (name : String) (hreached : (wfs.Rmdir env header name).calls ≠ []) :
    ∃ parent, wfs.inodeToPath.GetPath header.NodeId = Except.ok parent ∧
      (wfs.Rmdir env header name).calls =
        [RemoteCall.remove
          { parentPath := parent
            name := name
            recursive := true
            deleteSelf := true
            tolerateRecursionRace := true
            requireExists := false
            signature := [wfs.signature] }] := by
  rw [Rmdir_calls] at hreached ⊢
  by_cases h : name = "." ∨ name = ".."
  · rw [if_pos h] at hreached
    exact absurd rfl hreached
  · rw [if_neg h] at hreached ⊢
    cases hp : wfs.inodeToPath.GetPath header.NodeId with
    | error failure =>
      rw [hp] at hreached
      exact absurd rfl hreached
    | ok parent => exact ⟨parent, rfl, rfl⟩

/-- C10 amended, evaluated on `Rmdir(/home, "photos")`. -/
theorem Rmdir_issues_one_remove_request_witness :
    ∃ parent, wfsPhotos.inodeToPath.GetPath 2 = Except.ok parent ∧
      (wfsPhotos.Rmdir envOk ⟨2⟩ "photos").calls =
        [RemoteCall.remove
          { parentPath := parent, name := "photos", recursive := true, deleteSelf := true,
            tolerateRecursionRace := true, requireExists := false, signature := [7] }] :=
  Rmdir_issues_one_remove_request wfsPhotos envOk ⟨2⟩ "photos" (by decide)

/-! ## Parent handles the Registry does not track -/

/-- C5: a `Rmdir` call whose remote remove succeeds returns `OK`, and the Cache
afterwards is the Cache before with `delete` applied to exactly
`parent.Child(name)`: that path and every descendant of it are absent, and
every other path looks up as before. -/
theorem Rmdir_success_purges_subtree (wfs : WFS) (env : Env) (header : fuse.InHeader)
    (name : String) (parent : FullPath) (h1 : name ≠ ".") (h2 : name ≠ "..")
    (hparent : wfs.inodeToPath.GetPath header.NodeId = Except.ok parent)
    (hok : env.Remove (wfs.rmdirRequest parent name) = none) :
    (wfs.Rmdir env header name).code = Except.ok fuse.OK ∧
    (wfs.Rmdir env header name).wfs.metaCache =
      wfs.metaCache.DeleteEntry (FullPath.Child parent name) ∧
    (wfs.Rmdir env header name).wfs.metaCache.lookup (FullPath.Child parent name) = none ∧
    (∀ q, FullPath.isDescendantOf q (FullPath.Child parent name) = true →
      (wfs.Rmdir env header name).wfs.metaCache.lookup q = none) ∧
    (∀ q, q ≠ FullPath.Child parent name →
      FullPath.isDescendantOf q (FullPath.Child parent name) = false →
      (wfs.Rmdir env header name).wfs.metaCache.lookup q = wfs.metaCache.lookup q) := by
  rw [Rmdir_of_removed wfs env header name parent h1 h2 hparent hok]
  refine ⟨rfl, rfl, ?_, ?_, ?_⟩
  · exact lookup_DeleteEntry_self _ _
  · intro q hq
    exact lookup_DeleteEntry_descendant _ _ q hq
  · intro q hne hq
    exact lookup_DeleteEntry_other _ _ q hne hq

/-- C5, evaluated on the mount that caches `/home/photos`, its child
`/home/photos/a.jpg` and the sibling `/home/notes`: after the remove the first
two are absent and the sibling is still cached. -/
theorem Rmdir_success_purges_subtree_witness :
    (wfsPhotos.Rmdir envOk ⟨2⟩ "photos").code = Except.ok fuse.OK ∧
    (wfsPhotos.Rmdir envOk ⟨2⟩ "photos").wfs.metaCache.lookup
      (FullPath.Child "/home" "photos") = none ∧
    (wfsPhotos.Rmdir envOk ⟨2⟩ "photos").wfs.metaCache.lookup "/home/photos/a.jpg" = none ∧
    (wfsPhotos.Rmdir envOk ⟨2⟩ "photos").wfs.metaCache.lookup "/home/notes" =
      wfsPhotos.metaCache.lookup "/home/notes" ∧
    (wfsPhotos.metaCache.lookup "/home/photos/a.jpg").isSome = true ∧
    (wfsPhotos.metaCache.lookup "/home/notes").isSome = true :=
  have h := Rmdir_success_purges_subtree wfsPhotos envOk ⟨2⟩ "photos" "/home"
    (by decide) (by decide) rfl rfl
  ⟨h.1, h.2.2.1, h.2.2.2.1 "/home/photos/a.jpg" (by decide),
    h.2.2.2.2 "/home/notes" (by decide) (by decide), by decide, by decide⟩

/-! ## Create: success -/

/-- C1, refuted as stated: with a legal name, a tracked parent and a remote
create that succeeds, `Mkdir` returns `EIO`, not `OK`, when the local cache
insert fails; with the collaborators of `envInsertFails`, whose failed write
leaves the Cache as it found it, a lookup of `parent.Child(name)` finds
nothing. -/
theorem Mkdir_created_remotely_yet_EIO :
    envInsertFails.checkName "photos" = fuse.OK ∧
    wfsHome.inodeToPath.resolve 2 = some "/home" ∧
    envInsertFails.CreateEntry
      (wfsHome.mkdirRequest envInsertFails (mkdirPhotos 2) "photos" "/home") = none ∧
    (wfsHome.Mkdir envInsertFails (mkdirPhotos 2) "photos").code = Except.ok fuse.EIO ∧
    (wfsHome.Mkdir envInsertFails (mkdirPhotos 2) "photos").code ≠ Except.ok fuse.OK ∧
    (wfsHome.Mkdir envInsertFails (mkdirPhotos 2) "photos").wfs.metaCache.lookup
      (FullPath.Child "/home" "photos") = none := by
  decide

/-- C1, amended: for a legal name, a tracked parent handle and any requested
mode, uid, gid and umask, when the remote create succeeds and the local cache
insert succeeds, `Mkdir` returns `OK` and a cache lookup of
`parent.Child(name)` yields an entry with `isDirectory = true` and
`mode = dirBit | (mode &^ umask)`: bit 31 is set, and each bit below 32 is
set exactly when it is set in the requested mode and clear in the umask. -/
theorem Mkdir_success_caches_directory (wfs : WFS) (env : Env) (in_ : fuse.MkdirIn)
    (name : String) (parent : FullPath)
    (hlegal : env.checkName name = fuse.OK)
    (hparent : wfs.inodeToPath.resolve in_.NodeId = some parent)
    (hcreate : env.CreateEntry (wfs.mkdirRequest env in_ name parent) = none)
    (hinsert : env.insertFault
      (filer.FromPbEntry (wfs.mkdirRequest env in_ name parent).Directory
        (wfs.mkdirRequest env in_ name parent).Entry) = none) :
    (wfs.Mkdir env in_ name).code = Except.ok fuse.OK ∧
    ∃ e, (wfs.Mkdir env in_ name).wfs.metaCache.lookup (FullPath.Child parent name) = some e ∧
      e.isDirectory = true ∧
      e.Mode = os.ModeDir ||| andNot in_.Mode wfs.option.Umask ∧
      (∀ i, e.Mode.testBit i =
        (decide (i = 31) ||
          (decide (i < 32) && in_.Mode.testBit i && !wfs.option.Umask.testBit i))) := by
  have hdir := GetPath_of_resolve wfs.inodeToPath in_.NodeId parent hparent
  have hmode : (filer.FromPbEntry (wfs.mkdirRequest env in_ name parent).Directory
      (wfs.mkdirRequest env in_ name parent).Entry).Mode =
      os.ModeDir ||| andNot in_.Mode wfs.option.Umask := by
    show uint32 os.ModeDir ||| andNot in_.Mode (uint32 wfs.option.Umask) = _
    rw [uint32_ModeDir, andNot_uint32_right]
  rw [Mkdir_of_committed wfs env in_ name parent hlegal hdir hcreate hinsert]
  refine ⟨rfl, _, ?_, rfl, hmode, ?_⟩
  · exact lookup_upsert_self wfs.metaCache
      (filer.FromPbEntry (wfs.mkdirRequest env in_ name parent).Directory
        (wfs.mkdirRequest env in_ name parent).Entry)
  · intro i
    rw [hmode]
    exact dirMode_testBit _ _ i

/-- C1 amended, evaluated on scenario 1 of the specification: mode 0755 under
umask 022 below `/home` is cached as a directory whose mode is the directory
bit plus 0755. -/
theorem Mkdir_success_caches_directory_witness :
    ((wfsHome.Mkdir envOk (mkdirPhotos 2) "photos").code = Except.ok fuse.OK ∧
      ∃ e, (wfsHome.Mkdir envOk (mkdirPhotos 2) "photos").wfs.metaCache.lookup
          (FullPath.Child "/home" "photos") = some e ∧
        e.isDirectory = true ∧
        e.Mode = os.ModeDir ||| andNot (mkdirPhotos 2).Mode wfsHome.option.Umask ∧
        (∀ i, e.Mode.testBit i =
          (decide (i = 31) ||
            (decide (i < 32) && (mkdirPhotos 2).Mode.testBit i &&
              !wfsHome.option.Umask.testBit i)))) ∧
    os.ModeDir ||| andNot 0o755 0o22 = 2 ^ 31 + 0o755 ∧
    FullPath.Child "/home" "photos" = "/home/photos" :=
  ⟨Mkdir_success_caches_directory wfsHome envOk (mkdirPhotos 2) "photos" "/home"
    (by decide) (by decide) (by decide) (by decide), by decide, by decide⟩

/-! ## Create: all-or-nothing -/

/-- C3, refuted as stated: creating `/tmp` with a remote create that succeeds
and a local cache insert that fails, `Mkdir` returns the error `EIO` while the
remote store holds the new entry, and the Registry has no handle for `/tmp`. -/
theorem Mkdir_error_with_remote_entry :
    envInsertFails.CreateEntry
      (wfsHome.mkdirRequest envInsertFails ⟨1, 0o700, 0, 0⟩ "tmp" "/") = none ∧
    (wfsHome.Mkdir envInsertFails ⟨1, 0o700, 0, 0⟩ "tmp").code = Except.ok fuse.EIO ∧
    remoteHolds envInsertFails (wfsHome.Mkdir envInsertFails ⟨1, 0o700, 0, 0⟩ "tmp").calls
      "/" "tmp" = true ∧
    (wfsHome.Mkdir envInsertFails ⟨1, 0o700, 0, 0⟩ "tmp").wfs.inodeToPath.handleOf "/tmp" =
      none := by
  decide

/-- C3, amended: every `Mkdir` call ends in one of three states.  Nothing: it
does not return `OK`, the remote store holds no entry from this call, and the
mount (Cache and Registry) is unchanged.  All: it returns `OK`, the remote store
holds the new entry, the Cache holds it at `parent.Child(name)` and the
Registry binds a handle to that path.  Remote only: the remote create succeeded
and the local cache insert failed; it returns `EIO`, the remote store holds the
new entry, and the Registry is unchanged (what the Cache holds after the failed
insert is not stated). -/
theorem Mkdir_all_or_nothing_unless_insert_fails (wfs : WFS) (env : Env)
    (in_ : fuse.MkdirIn) (name : String) :
    ((wfs.Mkdir env in_ name).code ≠ Except.ok fuse.OK ∧
      (∀ dir, remoteHolds env (wfs.Mkdir env in_ name).calls dir name = false) ∧
      (wfs.Mkdir env in_ name).wfs = wfs) ∨
    (∃ parent, wfs.inodeToPath.GetPath in_.NodeId = Except.ok parent ∧
      (wfs.Mkdir env in_ name).code = Except.ok fuse.OK ∧
      remoteHolds env (wfs.Mkdir env in_ name).calls parent name = true ∧
      (wfs.Mkdir env in_ name).wfs.metaCache.lookup (FullPath.Child parent name) =
        some (filer.FromPbEntry (wfs.mkdirRequest env in_ name parent).Directory
          (wfs.mkdirRequest env in_ name parent).Entry) ∧
      ∃ inode, (wfs.Mkdir env in_ name).wfs.inodeToPath.handleOf
          (FullPath.Child parent name) = some inode) ∨
    (∃ parent, wfs.inodeToPath.GetPath in_.NodeId = Except.ok parent ∧
      (wfs.Mkdir env in_ name).code = Except.ok fuse.EIO ∧
      remoteHolds env (wfs.Mkdir env in_ name).calls parent name = true ∧
      (wfs.Mkdir env in_ name).wfs.inodeToPath = wfs.inodeToPath ∧
      env.CreateEntry (wfs.mkdirRequest env in_ name parent) = none ∧
      ∃ err, env.insertFault
        (filer.FromPbEntry (wfs.mkdirRequest env in_ name parent).Directory
          (wfs.mkdirRequest env in_ name parent).Entry) = some err) := by
  by_cases hlegal : env.checkName name = fuse.OK
  · cases hp : wfs.inodeToPath.GetPath in_.NodeId with
    | error failure =>
      left
      rw [Mkdir_of_failed_GetPath wfs env in_ name failure hlegal hp]
      refine ⟨?_, fun dir => remoteHolds_nil env dir name, rfl⟩
      intro h
      cases h
    | ok parent =>
      have hheld := remoteHolds_create env (wfs.mkdirRequest env in_ name parent)
      have hdir : (wfs.mkdirRequest env in_ name parent).Directory = parent := rfl
      have hname : (wfs.mkdirRequest env in_ name parent).Entry.Name = name := rfl
      rw [hdir, hname] at hheld
      cases hc : env.CreateEntry (wfs.mkdirRequest env in_ name parent) with
      | some err =>
        left
        rw [Mkdir_of_create_failed wfs env in_ name parent err hlegal hp hc]
        refine ⟨?_, fun dir => remoteHolds_refused env _ err hc dir name, rfl⟩
        intro h
        have h5 : fuse.EIO = fuse.OK := Except.ok.inj h
        exact absurd h5 (by decide)
      | none =>
        cases hi : env.insertFault
            (filer.FromPbEntry (wfs.mkdirRequest env in_ name parent).Directory
              (wfs.mkdirRequest env in_ name parent).Entry) with
        | some err =>
          right; right
          rw [Mkdir_of_insert_failed wfs env in_ name parent err hlegal hp hc hi]
          refine ⟨parent, rfl, rfl, ?_, rfl, hc, err, hi⟩
          show remoteHolds env [RemoteCall.create (wfs.mkdirRequest env in_ name parent)]
            parent name = true
          rw [hheld, hc]
          rfl
        | none =>
          right; left
          rw [Mkdir_of_committed wfs env in_ name parent hlegal hp hc hi]
          refine ⟨parent, rfl, rfl, ?_, ?_, _, handleOf_GetInode _ _⟩
          · show remoteHolds env [RemoteCall.create (wfs.mkdirRequest env in_ name parent)]
              parent name = true
            rw [hheld, hc]
            rfl
          · exact lookup_upsert_self wfs.metaCache
              (filer.FromPbEntry (wfs.mkdirRequest env in_ name parent).Directory
                (wfs.mkdirRequest env in_ name parent).Entry)
  · left
    rw [Mkdir_of_illegal wfs env in_ name hlegal]
    refine ⟨?_, fun dir => remoteHolds_nil env dir name, rfl⟩
    intro h
    exact hlegal (Except.ok.inj h)

end mount
